import Mathlib

/-!
# Verification of the tianzige grid-layout core

Shallow embedding of `src/tianzige/core.py` (page-size table, hex-color
codec, auto square-size calculation, dimension calculation and the line
renderer of `create_tianzige`), with theorems settling the specification
claims about it.

Python floats are idealised as rationals (`ℚ`); Python `int()` truncation,
float floor-division (including its `ZeroDivisionError`) and `str.lower`
(on ASCII input) are modelled explicitly.  Fallible code returns
`Except PyErr`; the drawing surface is modelled as a canvas accumulating
emitted line segments, so an erroring call emits no segments at all.
-/

namespace Tianzige

/-- Errors a `core.py` call can raise, by Python exception class. -/
inductive PyErr where
  | valueError (msg : String)
  | keyError (key : String)
  | zeroDivisionError
  deriving DecidableEq

/-- One millimetre in points (`reportlab.lib.units.mm`), i.e. `72 / 25.4`. -/
def mmQ : ℚ := 360 / 127

/-- Python `int()` on a float: truncation toward zero. -/
def pyInt (q : ℚ) : ℤ := if q < 0 then ⌈q⌉ else ⌊q⌋

/-- Python float `//`: floor of the quotient; raises `ZeroDivisionError`
on a zero divisor. -/
def pyFloorDiv (a b : ℚ) : Except PyErr ℚ :=
  if b = 0 then .error .zeroDivisionError else .ok ((⌊a / b⌋ : ℤ) : ℚ)

/-- Python `str.lower` on one ASCII character. -/
def pyLowerChar (c : Char) : Char :=
  if 'A' ≤ c ∧ c ≤ 'Z' then Char.ofNat (c.toNat + 32) else c

/-- Python `str.lower`, restricted to the ASCII page-size names used here:
lowercase every character of the string. -/
def pyLower (s : String) : String := ⟨s.data.map pyLowerChar⟩

/-- The `PAGE_SIZES` dict of `core.py`: the eight supported page formats,
with the `reportlab.lib.pagesizes` dimensions in points
(metric sizes are multiples of `mm`; letter/legal are inch-based). -/
def PAGE_SIZES (name : String) : Option (ℚ × ℚ) :=
  if name = "a4" then some (210 * mmQ, 297 * mmQ)
  else if name = "a5" then some (148 * mmQ, 210 * mmQ)
  else if name = "a6" then some (105 * mmQ, 148 * mmQ)
  else if name = "a3" then some (297 * mmQ, 420 * mmQ)
  else if name = "b4" then some (250 * mmQ, 353 * mmQ)
  else if name = "b5" then some (176 * mmQ, 250 * mmQ)
  else if name = "letter" then some (612, 792)
  else if name = "legal" then some (612, 1008)
  else none

/-- The `calculate_square_size` function of `core.py`: largest square size (in mm,
floored to 0.5 mm via `int(x*2)/2`) such that `min_squares` squares fit in
each direction of the usable area.  Dividing by `min_squares = 0` is
Python's `ZeroDivisionError`. -/
def calculate_square_size (page_width page_height margin_left margin_right
    margin_top margin_bottom : ℚ) (min_squares : ℤ) : Except PyErr ℚ :=
  let available_width := page_width - margin_left - margin_right
  let available_height := page_height - margin_top - margin_bottom
  if (min_squares : ℚ) = 0 then .error .zeroDivisionError
  else
    let max_square_size :=
      min (available_width / (min_squares : ℚ)) (available_height / (min_squares : ℚ))
    .ok ((pyInt ((max_square_size / mmQ) * 2) : ℚ) / 2)

/-- Hexadecimal digit test matching the character class `[0-9A-Fa-f]`. -/
def isHexDigit (c : Char) : Bool :=
  ('0' ≤ c && c ≤ '9') || ('A' ≤ c && c ≤ 'F') || ('a' ≤ c && c ≤ 'f')

/-- Python's `$` anchor outside MULTILINE mode: matches at the end of the
string, or just before a single newline that ends the string. -/
def pyDollar (cs : List Char) : Bool := cs == [] || cs == ['\n']

/-- Matcher for `[0-9A-Fa-f]{n}$` under Python `re` semantics. -/
def matchHexN : Nat → List Char → Bool
  | 0, cs => pyDollar cs
  | _ + 1, [] => false
  | n + 1, c :: cs => isHexDigit c && matchHexN n cs

/-- The `validate_hex_color` function of `core.py`:
`bool(re.match(r":hash:?[0-9A-Fa-f]\x7b6\x7d$", color))` — an optional
leading `#` then six hex digits then the Python `$` anchor.  (A leading
`#` can only be matched by the optional atom, since `#` is not a hex
digit, so no further backtracking arises.) -/
def validate_hex_color (color : String) : Bool :=
  match color.data with
  | '#' :: cs => matchHexN 6 cs
  | cs => matchHexN 6 cs

/-- The validator as the specification words it (for comparison with the
implementation): an optional leading hash mark followed by exactly six
hexadecimal digits, and nothing else. -/
def specHexColor (color : String) : Bool :=
  match color.data with
  | '#' :: cs => cs.length == 6 && cs.all isHexDigit
  | cs => cs.length == 6 && cs.all isHexDigit

/-- Value of one hex digit, as used by Python `int(_, 16)`: code point
minus 48 for a decimal digit, minus 55 for an uppercase and minus 87 for
a lowercase hex letter (so that the letters carry values 10 to 15). -/
def hexDigitVal (ch : Char) : Option Nat :=
  if ch ≤ '9' ∧ '0' ≤ ch then some (ch.toNat - 48)
  else if ch ≤ 'F' ∧ 'A' ≤ ch then some (ch.toNat - 55)
  else if ch ≤ 'f' ∧ 'a' ≤ ch then some (ch.toNat - 87)
  else none

/-- Python `int(s, 16)` on a plain digit string: `ValueError` when empty
or containing a non-hex character. -/
def pyIntBase16 (s : List Char) : Except PyErr Nat :=
  match s with
  | [] => .error (.valueError "invalid literal for int() with base 16")
  | _ => s.foldlM (fun acc c =>
      match hexDigitVal c with
      | some v => .ok (acc * 16 + v)
      | none => .error (.valueError "invalid literal for int() with base 16")) 0

/-- The `hex_to_rgb` function of `core.py`: strip leading `#`s, read the 2-digit slices
at 0, 2 and 4, divide each by 255. -/
def hex_to_rgb (hex_color : String) : Except PyErr (ℚ × ℚ × ℚ) := do
  let cs := hex_color.data.dropWhile (· == '#')
  let r ← pyIntBase16 ((cs.drop 0).take 2)
  let g ← pyIntBase16 ((cs.drop 2).take 2)
  let b ← pyIntBase16 ((cs.drop 4).take 2)
  pure ((r : ℚ) / 255, (g : ℚ) / 255, (b : ℚ) / 255)

/-- One emitted line segment, with the dash pattern in force when it was
drawn (`[]` = solid; the canvas default). -/
structure Line where
  x1 : ℚ
  y1 : ℚ
  x2 : ℚ
  y2 : ℚ
  dash : List ℚ
  deriving DecidableEq

/-- The drawing surface: current dash pattern plus the segments emitted so
far, in order. -/
structure Canvas where
  dash : List ℚ
  segs : List Line
  deriving DecidableEq

/-- Canvas `line(x1, y1, x2, y2)`: append a segment in the current dash style. -/
def Canvas.line (c : Canvas) (x1 y1 x2 y2 : ℚ) : Canvas :=
  { c with segs := c.segs ++ [⟨x1, y1, x2, y2, c.dash⟩] }

/-- Canvas `setDash(p)`: change the dash pattern for subsequent segments. -/
def Canvas.setDash (c : Canvas) (p : List ℚ) : Canvas := { c with dash := p }

/-- The renderer section of `create_tianzige` (its four drawing loops, in
source order): `cols+1` vertical and `rows+1` horizontal grid lines on a
fresh solid canvas, then, if the inner grid is on, `setDash([1,2])` and
the midpoint lines.  Python `range(n)` on a negative `n` is empty, hence
`Int.toNat`. -/
def drawGrid (mLeft mBottom spt : ℚ) (cols rows : ℤ) (inner : Bool) : List Line :=
  let grid_width := (cols : ℚ) * spt
  let grid_height := (rows : ℚ) * spt
  let c : Canvas := ⟨[], []⟩
  let c := (List.range (cols + 1).toNat).foldl (fun c i =>
      c.line (mLeft + i * spt) mBottom (mLeft + i * spt) (mBottom + grid_height)) c
  let c := (List.range (rows + 1).toNat).foldl (fun c i =>
      c.line mLeft (mBottom + i * spt) (mLeft + grid_width) (mBottom + i * spt)) c
  let c :=
    if inner then
      let c := c.setDash [1, 2]
      let c := (List.range cols.toNat).foldl (fun c i =>
          c.line (mLeft + i * spt + spt / 2) mBottom
            (mLeft + i * spt + spt / 2) (mBottom + grid_height)) c
      (List.range rows.toNat).foldl (fun c i =>
          c.line mLeft (mBottom + i * spt + spt / 2)
            (mLeft + grid_width) (mBottom + i * spt + spt / 2)) c
    else c
  c.segs

/-- The dimension computation of `create_tianzige`
(`cols = int(width // square_size_pt)`, same for rows). -/
def computeDims (width height square_size_pt : ℚ) : Except PyErr (ℤ × ℤ) := do
  let cq ← pyFloorDiv width square_size_pt
  let rq ← pyFloorDiv height square_size_pt
  pure (pyInt cq, pyInt rq)

/-- Everything a successful `create_tianzige` call determined: the stroke
colour, the resolved square size (mm and points), the grid dimensions, the
emitted segments and the page dimensions. -/
structure RunResult where
  rgb : ℚ × ℚ × ℚ
  squareSizeMm : ℚ
  squareSizePt : ℚ
  cols : ℤ
  rows : ℤ
  segs : List Line
  page : ℚ × ℚ
  deriving DecidableEq

/-- The `create_tianzige` function of `core.py` (margins in mm, `square_size` in mm or
`none` for auto mode): validate the colour, look the page size up under
`str.lower`, convert the colour, resolve the square size, compute the grid
dimensions, draw.  An `.error` result emits no segments (nothing is
drawn). -/
def create_tianzige (line_color : String) (square_size : Option ℚ)
    (margin_top margin_bottom margin_left margin_right : ℚ)
    (show_inner_grid : Bool) (page_size : String) : Except PyErr RunResult := do
  if !validate_hex_color line_color then
    throw (.valueError "Invalid hex color format. Use format: #RRGGBB")
  let mTop := margin_top * mmQ
  let mBottom := margin_bottom * mmQ
  let mLeft := margin_left * mmQ
  let mRight := margin_right * mmQ
  let pw ← match PAGE_SIZES (pyLower page_size) with
    | some wh => pure wh.1
    | none => throw (.keyError (pyLower page_size))
  let ph ← match PAGE_SIZES (pyLower page_size) with
    | some wh => pure wh.2
    | none => throw (.keyError (pyLower page_size))
  let rgb ← hex_to_rgb line_color
  let sq ← match square_size with
    | none => calculate_square_size pw ph mLeft mRight mTop mBottom 10
    | some s => pure s
  let square_size_pt := sq * mmQ
  let width := pw - mLeft - mRight
  let height := ph - mTop - mBottom
  let (cols, rows) ← computeDims width height square_size_pt
  let segs := drawGrid mLeft mBottom square_size_pt cols rows show_inner_grid
  pure ⟨rgb, sq, square_size_pt, cols, rows, segs, (pw, ph)⟩

/-- Sizing-error message naming the horizontal axis (the tests expect the
substring "horizontal boxes"). -/
def horizErrMsg : String :=
  "Square size too large for minimum horizontal boxes requirement"

/-- Sizing-error message naming the vertical axis. -/
def vertErrMsg : String :=
  "Square size too large for minimum vertical boxes requirement"

/-- Modelled from the spec: the auto-size resolver with separate minimum
counts (`calculate_required_size`), which the tests import from
`tianzige.core` but which is absent from the `core.py` in `src/`.
Per §4.2: `candidate = min(usableWidth/minCols, usableHeight/minRows)`,
converted to mm and floored to the nearest 0.5 mm; a non-positive or
degenerate result (usable area ≤ 0, or minimum counts ≤ 0) is a
validation error. -/
def calculate_required_size (page_width page_height margin_left margin_right
    margin_top margin_bottom : ℚ) (min_h min_v : ℤ) : Except PyErr ℚ :=
  let available_width := page_width - margin_left - margin_right
  let available_height := page_height - margin_top - margin_bottom
  if available_width ≤ 0 ∨ available_height ≤ 0 ∨ min_h ≤ 0 ∨ min_v ≤ 0 then
    .error (.valueError "Cannot satisfy minimum box requirements: degenerate input")
  else
    let candidate :=
      min (available_width / (min_h : ℚ)) (available_height / (min_v : ℚ))
    let result : ℚ := ((⌊(candidate / mmQ) * 2⌋ : ℤ) : ℚ) / 2
    if result ≤ 0 then
      .error (.valueError "Cannot satisfy minimum box requirements: degenerate input")
    else .ok result

/-- Modelled from the spec: `create_tianzige` with the
`min_horizontal`/`min_vertical` parameters, which `__main__.py` and the
tests pass but which the `core.py` in `src/` does not accept.  Per §4.2,
in explicit-size mode the resolver verifies the explicit size still
yields at least the requested number of columns/rows in the usable area
and otherwise fails with a sizing error naming the under-constrained
axis, before anything is drawn; in auto mode the minimums (defaulting to
10) drive the size calculation. -/
def create_tianzige_with_min (line_color : String) (square_size : Option ℚ)
    (margin_top margin_bottom margin_left margin_right : ℚ)
    (show_inner_grid : Bool) (page_size : String)
    (min_horizontal min_vertical : Option ℤ) : Except PyErr RunResult := do
  if !validate_hex_color line_color then
    throw (.valueError "Invalid hex color format. Use format: #RRGGBB")
  let mTop := margin_top * mmQ
  let mBottom := margin_bottom * mmQ
  let mLeft := margin_left * mmQ
  let mRight := margin_right * mmQ
  let pw ← match PAGE_SIZES (pyLower page_size) with
    | some wh => pure wh.1
    | none => throw (.keyError (pyLower page_size))
  let ph ← match PAGE_SIZES (pyLower page_size) with
    | some wh => pure wh.2
    | none => throw (.keyError (pyLower page_size))
  let rgb ← hex_to_rgb line_color
  let width := pw - mLeft - mRight
  let height := ph - mTop - mBottom
  let sq ← match square_size with
    | none =>
        calculate_required_size pw ph mLeft mRight mTop mBottom
          (min_horizontal.getD 10) (min_vertical.getD 10)
    | some s => do
        let (fit_cols, fit_rows) ← computeDims width height (s * mmQ)
        (match min_horizontal with
          | some m => if fit_cols < m then throw (.valueError horizErrMsg) else pure ()
          | none => pure ())
        (match min_vertical with
          | some m => if fit_rows < m then throw (.valueError vertErrMsg) else pure ()
          | none => pure ())
        pure s
  let square_size_pt := sq * mmQ
  let (cols, rows) ← computeDims width height square_size_pt
  let segs := drawGrid mLeft mBottom square_size_pt cols rows show_inner_grid
  pure ⟨rgb, sq, square_size_pt, cols, rows, segs, (pw, ph)⟩

/-! ## Helper lemmas -/

/-- Monadic bind on a successful `Except` value. -/
@[simp] theorem except_ok_bind {ε α β : Type} (a : α) (f : α → Except ε β) :
    (Except.ok a : Except ε α) >>= f = f a := rfl

/-- Monadic bind on a failed `Except` value. -/
@[simp] theorem except_error_bind {ε α β : Type} (e : ε) (f : α → Except ε β) :
    (Except.error e : Except ε α) >>= f = Except.error e := rfl

/-- Pure on `Except` is `ok`. -/
@[simp] theorem except_pure {ε α : Type} (a : α) :
    (pure a : Except ε α) = Except.ok a := rfl

/-- Throw on `Except` is `error`. -/
@[simp] theorem except_throw {ε α : Type} (e : ε) :
    (throw e : Except ε α) = Except.error e := rfl

/-- Truncation of a value that is already an integer is that integer. -/
theorem pyInt_intCast (n : ℤ) : pyInt (n : ℚ) = n := by
  unfold pyInt
  split
  · exact Int.ceil_intCast n
  · exact Int.floor_intCast n

/-- Truncation agrees with the floor on non-negative values. -/
theorem pyInt_of_nonneg {q : ℚ} (h : 0 ≤ q) : pyInt q = ⌊q⌋ := by
  unfold pyInt
  exact if_neg (not_lt.mpr h)

/-- Floor division with a non-zero divisor succeeds with the floor. -/
theorem pyFloorDiv_of_ne {a b : ℚ} (h : b ≠ 0) :
    pyFloorDiv a b = .ok ((⌊a / b⌋ : ℤ) : ℚ) := by
  unfold pyFloorDiv
  exact if_neg h

/-- With a non-zero square size, the dimension computation succeeds and
returns the pair of floors. -/
theorem computeDims_of_ne {s : ℚ} (w h : ℚ) (hs : s ≠ 0) :
    computeDims w h s = .ok (⌊w / s⌋, ⌊h / s⌋) := by
  unfold computeDims
  rw [pyFloorDiv_of_ne hs, pyFloorDiv_of_ne hs]
  simp [pyInt_intCast]

/-- Evaluation of the validator on the default colour string. -/
theorem validate_808080 : validate_hex_color "#808080" = true := by decide

/-- Lowercasing fixes the already-lowercase name `"a4"`. -/
theorem pyLower_a4 : pyLower "a4" = "a4" := by decide

/-- Evaluation of the colour conversion on the default colour string. -/
theorem hex_to_rgb_808080 :
    hex_to_rgb "#808080" = .ok (128 / 255, 128 / 255, 128 / 255) := by
  simp [hex_to_rgb, pyIntBase16, hexDigitVal]

/-! ## Claim theorems -/

/-- C4. For every positive square size, the dimension calculation of
`create_tianzige` returns `cols = ⌊usableWidth / squareSize⌋` and
`rows = ⌊usableHeight / squareSize⌋` — a pure floor, never a rounding;
in particular an 80pt × 80pt usable area with 20pt squares yields exactly
4 columns and 4 rows. -/
theorem computeDims_floor (uw uh s : ℚ) (hs : 0 < s) :
    computeDims uw uh s = .ok (⌊uw / s⌋, ⌊uh / s⌋) :=
  computeDims_of_ne uw uh (ne_of_gt hs)

/-- Witness for C4 at the spec's concrete example. -/
theorem computeDims_floor_witness :
    (0 : ℚ) < 20 ∧ computeDims 80 80 20 = .ok (4, 4) := by
  refine ⟨by norm_num, ?_⟩
  rw [computeDims_floor 80 80 20 (by norm_num)]
  norm_num

/-- C7. A malformed colour string makes `create_tianzige` fail with the
format `ValueError` first thing: no page lookup, no size resolution and no
drawing happen (an `.error` result carries no emitted segments, i.e. no
output artifact). -/
theorem create_tianzige_invalid_color (line_color : String) (square_size : Option ℚ)
    (mt mb ml mr : ℚ) (inner : Bool) (page : String)
    (h : validate_hex_color line_color = false) :
    create_tianzige line_color square_size mt mb ml mr inner page =
      .error (.valueError "Invalid hex color format. Use format: #RRGGBB") := by
  unfold create_tianzige
  rw [h]
  rfl

/-- Witness for C7: the spec's end-to-end example, colour `"invalid"` on an
otherwise default invocation. -/
theorem create_tianzige_invalid_color_witness :
    create_tianzige "invalid" none 15 15 10 20 true "a4" =
      .error (.valueError "Invalid hex color format. Use format: #RRGGBB") :=
  create_tianzige_invalid_color "invalid" none 15 15 10 20 true "a4" (by decide)

/-- C5 (against the code): a 1000 mm square on an A4 page with the default
margins is larger than both usable dimensions, yet `create_tianzige` does
not fail — it resolves `cols = rows = 0`, lets that zero-square layout
reach the renderer, and draws two (degenerate) boundary lines. -/
theorem create_tianzige_oversize_no_error :
    (create_tianzige "#808080" (some 1000) 15 15 10 20 true "a4").toOption.map
      (fun r => (r.cols, r.rows, r.segs.length)) = some (0, 0, 2) := by
  unfold create_tianzige
  rw [validate_808080, pyLower_a4, hex_to_rgb_808080]
  simp only [Bool.not_true, Bool.false_eq_true, if_false, PAGE_SIZES, if_pos,
    except_ok_bind, except_pure, except_throw]
  norm_num [computeDims, pyFloorDiv, mmQ, pyInt, drawGrid, Canvas.line, Canvas.setDash,
    List.range_succ, Except.toOption]

/-- C6 (against the code): in auto-size mode with usable width exactly
zero (105 mm left and right margins on A4), the resolved square size is
`0`, and `create_tianzige` crashes with an unhandled `ZeroDivisionError`
from `width // square_size_pt` instead of failing with a validation
error. -/
theorem create_tianzige_degenerate_crashes :
    create_tianzige "#808080" none 15 15 105 105 true "a4" =
      .error .zeroDivisionError := by
  unfold create_tianzige
  rw [validate_808080, pyLower_a4, hex_to_rgb_808080]
  simp only [Bool.not_true, Bool.false_eq_true, if_false, PAGE_SIZES, if_pos,
    except_ok_bind, except_pure, except_throw]
  norm_num [calculate_square_size, pyInt, min_def, mmQ, computeDims, pyFloorDiv]

/-- A fold that emits one line per index leaves the dash pattern unchanged
and appends the corresponding segments in order. -/
theorem foldl_line_eq (fx1 fy1 fx2 fy2 : ℕ → ℚ) (l : List ℕ) (c : Canvas) :
    l.foldl (fun c i => c.line (fx1 i) (fy1 i) (fx2 i) (fy2 i)) c =
      ⟨c.dash, c.segs ++ l.map fun i => ⟨fx1 i, fy1 i, fx2 i, fy2 i, c.dash⟩⟩ := by
  induction l generalizing c with
  | nil => simp
  | cons a t ih =>
      rw [List.foldl_cons, ih]
      simp [Canvas.line]

/-- C3. The renderer emits exactly `cols+1` solid vertical lines at
`x = marginLeft + i·squareSize` spanning `marginBottom` to
`marginBottom + rows·squareSize`, then `rows+1` solid horizontal lines at
`y = marginBottom + i·squareSize` spanning the full grid width, and — when
the inner grid is enabled — additionally `cols` vertical and `rows`
horizontal midpoint lines in the dashed 1-on/2-off style, spanning the
same full grid extent. -/
theorem drawGrid_renderer_spec (mLeft mBottom spt : ℚ) (cols rows : ℕ) (inner : Bool) :
    drawGrid mLeft mBottom spt (cols : ℤ) (rows : ℤ) inner =
      ((List.range (cols + 1)).map fun i =>
        ⟨mLeft + i * spt, mBottom, mLeft + i * spt, mBottom + rows * spt, ([] : List ℚ)⟩) ++
      ((List.range (rows + 1)).map fun i =>
        ⟨mLeft, mBottom + i * spt, mLeft + cols * spt, mBottom + i * spt, ([] : List ℚ)⟩) ++
      (if inner then
        ((List.range cols).map fun i =>
          ⟨mLeft + i * spt + spt / 2, mBottom, mLeft + i * spt + spt / 2,
            mBottom + rows * spt, [1, 2]⟩) ++
        ((List.range rows).map fun i =>
          ⟨mLeft, mBottom + i * spt + spt / 2, mLeft + cols * spt,
            mBottom + i * spt + spt / 2, [1, 2]⟩)
      else []) := by
  unfold drawGrid
  have h1 : ((cols : ℤ) + 1).toNat = cols + 1 := by omega
  have h2 : ((rows : ℤ) + 1).toNat = rows + 1 := by omega
  have h3 : (cols : ℤ).toNat = cols := by omega
  have h4 : (rows : ℤ).toNat = rows := by omega
  rw [h1, h2, h3, h4]
  cases inner with
  | true =>
      simp only [foldl_line_eq, Canvas.setDash, if_true, Int.cast_natCast]
      simp [List.append_assoc]
  | false =>
      simp only [foldl_line_eq, Canvas.setDash, if_false, Int.cast_natCast]
      simp [List.append_assoc]

/-- C9. Auto-size resolution is antitone in the minimum box count: with a
valid usable area (per the data-model invariant on margins) and
`0 < m1 ≤ m2`, both resolutions succeed and asking for `m2` boxes
resolves a square size no larger than asking for `m1`. -/
theorem calculate_square_size_antitone (pw ph ml mr mt mb : ℚ) (m1 m2 : ℤ)
    (hm1 : 0 < m1) (hm : m1 ≤ m2)
    (haw : 0 ≤ pw - ml - mr) (hah : 0 ≤ ph - mt - mb) :
    ∃ s1 s2, calculate_square_size pw ph ml mr mt mb m1 = .ok s1 ∧
      calculate_square_size pw ph ml mr mt mb m2 = .ok s2 ∧ s2 ≤ s1 := by
  have hm2 : 0 < m2 := lt_of_lt_of_le hm1 hm
  have hq1 : (0 : ℚ) < (m1 : ℚ) := by exact_mod_cast hm1
  have hq2 : (0 : ℚ) < (m2 : ℚ) := by exact_mod_cast hm2
  have hmm : (0 : ℚ) < mmQ := by norm_num [mmQ]
  unfold calculate_square_size
  rw [if_neg (ne_of_gt hq1), if_neg (ne_of_gt hq2)]
  refine ⟨_, _, rfl, rfl, ?_⟩
  have key : ∀ a : ℚ, 0 ≤ a → a / (m2 : ℚ) ≤ a / (m1 : ℚ) := by
    intro a ha
    rw [div_eq_mul_inv, div_eq_mul_inv]
    exact mul_le_mul_of_nonneg_left (by
      apply inv_anti₀ hq1
      exact_mod_cast hm) ha
  have hmin : min ((pw - ml - mr) / (m2 : ℚ)) ((ph - mt - mb) / (m2 : ℚ)) ≤
      min ((pw - ml - mr) / (m1 : ℚ)) ((ph - mt - mb) / (m1 : ℚ)) :=
    min_le_min (key _ haw) (key _ hah)
  have hmin2 : 0 ≤ min ((pw - ml - mr) / (m2 : ℚ)) ((ph - mt - mb) / (m2 : ℚ)) :=
    le_min (div_nonneg haw hq2.le) (div_nonneg hah hq2.le)
  have hx2 : 0 ≤ min ((pw - ml - mr) / (m2 : ℚ)) ((ph - mt - mb) / (m2 : ℚ)) / mmQ * 2 := by
    positivity
  have hx1 : 0 ≤ min ((pw - ml - mr) / (m1 : ℚ)) ((ph - mt - mb) / (m1 : ℚ)) / mmQ * 2 := by
    have := le_trans hmin2 hmin
    positivity
  rw [pyInt_of_nonneg hx1, pyInt_of_nonneg hx2]
  have hle : min ((pw - ml - mr) / (m2 : ℚ)) ((ph - mt - mb) / (m2 : ℚ)) / mmQ * 2 ≤
      min ((pw - ml - mr) / (m1 : ℚ)) ((ph - mt - mb) / (m1 : ℚ)) / mmQ * 2 := by
    have := (div_le_div_iff_of_pos_right hmm).mpr hmin
    linarith
  have hf := Int.floor_le_floor hle
  have hfq : ((⌊min ((pw - ml - mr) / (m2 : ℚ)) ((ph - mt - mb) / (m2 : ℚ)) / mmQ * 2⌋ : ℤ) : ℚ) ≤
      ((⌊min ((pw - ml - mr) / (m1 : ℚ)) ((ph - mt - mb) / (m1 : ℚ)) / mmQ * 2⌋ : ℤ) : ℚ) := by
    exact_mod_cast hf
  linarith

/-- Witness for C9: growing the minimum count from 10 to 12 on the default
A4 geometry does not grow the resolved square size. -/
theorem calculate_square_size_antitone_witness :
    ∃ s1 s2, calculate_square_size (210 * mmQ) (297 * mmQ) (10 * mmQ) (20 * mmQ)
        (15 * mmQ) (15 * mmQ) 10 = .ok s1 ∧
      calculate_square_size (210 * mmQ) (297 * mmQ) (10 * mmQ) (20 * mmQ)
        (15 * mmQ) (15 * mmQ) 12 = .ok s2 ∧ s2 ≤ s1 :=
  calculate_square_size_antitone (210 * mmQ) (297 * mmQ) (10 * mmQ) (20 * mmQ)
    (15 * mmQ) (15 * mmQ) 10 12 (by norm_num) (by norm_num)
    (by norm_num [mmQ]) (by norm_num [mmQ])

/-- C10. The page-size lookup is case-insensitive and total on the
eight-entry table: `create_tianzige` reads its page argument only through
`str.lower`, so two spellings with the same lowercasing behave
identically; and with a valid colour, a lowercased name outside the table
makes the call fail with a `KeyError` (a lookup error). -/
theorem page_lookup_case_insensitive :
    (∀ (c : String) (sq : Option ℚ) (mt mb ml mr : ℚ) (inner : Bool) (p p' : String),
        pyLower p = pyLower p' →
        create_tianzige c sq mt mb ml mr inner p =
          create_tianzige c sq mt mb ml mr inner p') ∧
    (∀ (c : String) (sq : Option ℚ) (mt mb ml mr : ℚ) (inner : Bool) (p : String),
        validate_hex_color c = true → PAGE_SIZES (pyLower p) = none →
        create_tianzige c sq mt mb ml mr inner p =
          .error (.keyError (pyLower p))) := by
  constructor
  · intro c sq mt mb ml mr inner p p' h
    unfold create_tianzige
    rw [h]
  · intro c sq mt mb ml mr inner p hv hp
    simp [create_tianzige, hv, hp]

/-- Witness for C10: `"A4"` draws the same grid as `"a4"`, and the
unsupported name `"tabloid"` fails with a `KeyError`. -/
theorem page_lookup_case_insensitive_witness :
    create_tianzige "#808080" none 15 15 10 20 true "A4" =
      create_tianzige "#808080" none 15 15 10 20 true "a4" ∧
    create_tianzige "#808080" none 15 15 10 20 true "tabloid" =
      .error (.keyError "tabloid") := by
  constructor
  · exact page_lookup_case_insensitive.1 "#808080" none 15 15 10 20 true "A4" "a4" (by decide)
  · have h := page_lookup_case_insensitive.2 "#808080" none 15 15 10 20 true "tabloid"
      (by decide) (by decide)
    rwa [show pyLower "tabloid" = "tabloid" from by decide] at h

/-- C2. In auto-size mode the resolved square size is
`min(usableWidth/10, usableHeight/10)` (both minimum counts being the
default 10, the only value the `src/` code can use), converted from
points to millimetres and floored to the nearest 0.5 mm
(`⌊value·2⌋ / 2`): `calculate_square_size` returns exactly that value,
and every successful auto-mode `create_tianzige` run carries it as its
resolved square size. -/
theorem auto_size_formula (color page : String) (mt mb ml mr pw ph : ℚ) (inner : Bool)
    (hv : validate_hex_color color = true)
    (hp : PAGE_SIZES (pyLower page) = some (pw, ph))
    (h1 : 0 < pw - ml * mmQ - mr * mmQ) (h2 : 0 < ph - mt * mmQ - mb * mmQ) :
    calculate_square_size pw ph (ml * mmQ) (mr * mmQ) (mt * mmQ) (mb * mmQ) 10 =
      .ok (((⌊min ((pw - ml * mmQ - mr * mmQ) / 10) ((ph - mt * mmQ - mb * mmQ) / 10)
        / mmQ * 2⌋ : ℤ) : ℚ) / 2) ∧
    ∀ r, create_tianzige color none mt mb ml mr inner page = .ok r →
      r.squareSizeMm =
        ((⌊min ((pw - ml * mmQ - mr * mmQ) / 10) ((ph - mt * mmQ - mb * mmQ) / 10)
          / mmQ * 2⌋ : ℤ) : ℚ) / 2 := by
  have hmm : (0 : ℚ) < mmQ := by norm_num [mmQ]
  have hpos : 0 < min ((pw - ml * mmQ - mr * mmQ) / 10) ((ph - mt * mmQ - mb * mmQ) / 10) :=
    lt_min (by positivity) (by positivity)
  have hval : 0 ≤ min ((pw - ml * mmQ - mr * mmQ) / 10) ((ph - mt * mmQ - mb * mmQ) / 10)
      / mmQ * 2 := by
    positivity
  have hcalc : calculate_square_size pw ph (ml * mmQ) (mr * mmQ) (mt * mmQ) (mb * mmQ) 10 =
      .ok (((⌊min ((pw - ml * mmQ - mr * mmQ) / 10) ((ph - mt * mmQ - mb * mmQ) / 10)
        / mmQ * 2⌋ : ℤ) : ℚ) / 2) := by
    unfold calculate_square_size
    rw [if_neg (by norm_num)]
    rw [show ((10 : ℤ) : ℚ) = 10 from by norm_num]
    simp only [pyInt_of_nonneg hval]
  refine ⟨hcalc, ?_⟩
  intro r hr
  simp only [create_tianzige, hv, hp, Bool.not_true, Bool.false_eq_true, if_false,
    except_ok_bind, except_pure, except_throw] at hr
  rw [hcalc] at hr
  cases hx : hex_to_rgb color with
  | error e => rw [hx] at hr; simp at hr
  | ok rgbv =>
      rw [hx] at hr
      simp only [except_ok_bind] at hr
      cases hd : computeDims (pw - ml * mmQ - mr * mmQ) (ph - mt * mmQ - mb * mmQ)
          ((((⌊min ((pw - ml * mmQ - mr * mmQ) / 10) ((ph - mt * mmQ - mb * mmQ) / 10)
            / mmQ * 2⌋ : ℤ) : ℚ) / 2) * mmQ) with
      | error e => rw [hd] at hr; simp at hr
      | ok dims =>
          rw [hd] at hr
          simp only [except_ok_bind, except_pure] at hr
          cases hr
          rfl

/-- Witness for C2: the default A4 invocation (margins 15/15/10/20 mm). -/
theorem auto_size_formula_witness :
    calculate_square_size (210 * mmQ) (297 * mmQ) (10 * mmQ) (20 * mmQ)
        (15 * mmQ) (15 * mmQ) 10 =
      .ok (((⌊min ((210 * mmQ - 10 * mmQ - 20 * mmQ) / 10)
        ((297 * mmQ - 15 * mmQ - 15 * mmQ) / 10) / mmQ * 2⌋ : ℤ) : ℚ) / 2) ∧
    ∀ r, create_tianzige "#808080" none 15 15 10 20 true "a4" = .ok r →
      r.squareSizeMm =
        ((⌊min ((210 * mmQ - 10 * mmQ - 20 * mmQ) / 10)
          ((297 * mmQ - 15 * mmQ - 15 * mmQ) / 10) / mmQ * 2⌋ : ℤ) : ℚ) / 2 :=
  auto_size_formula "#808080" "a4" 15 15 10 20 (210 * mmQ) (297 * mmQ) true
    validate_808080 (by rw [pyLower_a4]; rfl) (by norm_num [mmQ]) (by norm_num [mmQ])

/-- Language of `matchHexN n`: exactly `n` hex digits followed by either
nothing or one final newline (the `$` anchor). -/
theorem matchHexN_iff (n : ℕ) (cs : List Char) :
    matchHexN n cs = true ↔
      ∃ pre post, cs = pre ++ post ∧ pre.length = n ∧
        (∀ ch ∈ pre, isHexDigit ch) ∧ (post = [] ∨ post = ['\n']) := by
  induction n generalizing cs with
  | zero =>
      simp only [matchHexN, pyDollar, Bool.or_eq_true, beq_iff_eq]
      constructor
      · rintro (rfl | rfl)
        · exact ⟨[], [], rfl, rfl, by simp, Or.inl rfl⟩
        · exact ⟨[], ['\n'], rfl, rfl, by simp, Or.inr rfl⟩
      · rintro ⟨pre, post, rfl, hlen, hall, hpost⟩
        have hp : pre = [] := List.length_eq_zero.mp hlen
        subst hp
        rcases hpost with rfl | rfl
        · exact Or.inl rfl
        · exact Or.inr rfl
  | succ n ih =>
      cases cs with
      | nil =>
          simp only [matchHexN, Bool.false_eq_true, false_iff]
          rintro ⟨pre, post, heq, hlen, hall, hpost⟩
          have := congrArg List.length heq
          simp [hlen] at this
          omega
      | cons a t =>
          simp only [matchHexN, Bool.and_eq_true, ih]
          constructor
          · rintro ⟨ha, pre, post, rfl, hlen, hall, hpost⟩
            refine ⟨a :: pre, post, rfl, by simp [hlen], ?_, hpost⟩
            intro ch hch
            rcases List.mem_cons.mp hch with rfl | hch
            · exact ha
            · exact hall ch hch
          · rintro ⟨pre, post, heq, hlen, hall, hpost⟩
            cases pre with
            | nil => simp at hlen
            | cons p pre2 =>
                rw [List.cons_append] at heq
                injection heq with h1 h2
                subst h1
                subst h2
                refine ⟨hall _ (by simp), pre2, post, rfl, by simpa using hlen, ?_, hpost⟩
                intro ch hch
                exact hall ch (by simp [hch])

/-- Language of the implemented validator: optional `#`, six hex digits,
then the end of the string or one final newline. -/
theorem validate_hex_color_iff (s : String) :
    validate_hex_color s = true ↔
      ∃ opt pre post, s.data = opt ++ pre ++ post ∧
        (opt = [] ∨ opt = ['#']) ∧ pre.length = 6 ∧
        (∀ ch ∈ pre, isHexDigit ch) ∧ (post = [] ∨ post = ['\n']) := by
  unfold validate_hex_color
  split
  · next cs hs =>
      rw [matchHexN_iff]
      constructor
      · rintro ⟨pre, post, rfl, hlen, hall, hpost⟩
        exact ⟨['#'], pre, post, by simp [hs], Or.inr rfl, hlen, hall, hpost⟩
      · rintro ⟨opt, pre, post, heq, hopt, hlen, hall, hpost⟩
        rcases hopt with rfl | rfl
        · rw [hs, List.nil_append] at heq
          cases pre with
          | nil => simp at hlen
          | cons p pre2 =>
              rw [List.cons_append] at heq
              injection heq with h1 h2
              have := hall p (by simp)
              rw [← h1] at this
              exact absurd this (by decide)
        · rw [hs] at heq
          rw [List.cons_append, List.cons_append] at heq
          injection heq with h1 h2
          exact ⟨pre, post, h2, hlen, hall, hpost⟩
  · next cs hns =>
      rw [matchHexN_iff]
      constructor
      · rintro ⟨pre, post, heq, hlen, hall, hpost⟩
        exact ⟨[], pre, post, by simpa using heq, Or.inl rfl, hlen, hall, hpost⟩
      · rintro ⟨opt, pre, post, heq, hopt, hlen, hall, hpost⟩
        rcases hopt with rfl | rfl
        · exact ⟨pre, post, by simpa using heq, hlen, hall, hpost⟩
        · rw [List.cons_append] at heq
          exact (hns (pre ++ post) heq).elim

/-- Language of the spec-worded validator: optional `#`, six hex digits,
nothing more. -/
theorem specHexColor_iff (s : String) :
    specHexColor s = true ↔
      ∃ opt pre, s.data = opt ++ pre ∧ (opt = [] ∨ opt = ['#']) ∧
        pre.length = 6 ∧ ∀ ch ∈ pre, isHexDigit ch := by
  unfold specHexColor
  split
  · next cs hs =>
      simp only [Bool.and_eq_true, beq_iff_eq, List.all_eq_true]
      constructor
      · rintro ⟨hlen, hall⟩
        exact ⟨['#'], cs, by simp [hs], Or.inr rfl, hlen, hall⟩
      · rintro ⟨opt, pre, heq, hopt, hlen, hall⟩
        rcases hopt with rfl | rfl
        · rw [hs, List.nil_append] at heq
          cases pre with
          | nil => simp at hlen
          | cons p pre2 =>
              injection heq with h1 h2
              have := hall p (by simp)
              rw [← h1] at this
              exact absurd this (by decide)
        · rw [hs, List.cons_append] at heq
          injection heq with h1 h2
          subst h2
          exact ⟨hlen, hall⟩
  · next cs hns =>
      simp only [Bool.and_eq_true, beq_iff_eq, List.all_eq_true]
      constructor
      · rintro ⟨hlen, hall⟩
        exact ⟨[], s.data, by simp, Or.inl rfl, hlen, hall⟩
      · rintro ⟨opt, pre, heq, hopt, hlen, hall⟩
        rcases hopt with rfl | rfl
        · rw [List.nil_append] at heq
          rw [heq]
          exact ⟨hlen, hall⟩
        · exact (hns pre heq).elim

/-- C8 counterexample: the Python `$` anchor also matches just before a
single trailing newline, so the validator accepts a string that is not of
the claimed optional-hash-plus-six-hex-digits form. -/
theorem validate_hex_color_trailing_newline :
    validate_hex_color "#808080\n" = true ∧ specHexColor "#808080\n" = false := by decide

/-- C8 (amended). The validator accepts exactly the strings of the claimed
form — optional `#` then six hex digits — or such a string followed by one
trailing newline (an artifact of the `$` anchor in Python `re`); it still
rejects and accepts all the claim's listed examples. -/
theorem validate_hex_color_amended :
    (∀ s : String, validate_hex_color s = true ↔
        specHexColor s = true ∨
          ∃ t : String, specHexColor t = true ∧ s = t.push '\n') ∧
    validate_hex_color "invalid" = false ∧
    validate_hex_color "#12345" = false ∧
    validate_hex_color "#1234567" = false ∧
    validate_hex_color "#GHIJKL" = false ∧
    validate_hex_color "#FF0000" = true ∧
    validate_hex_color "00FF00" = true := by
  refine ⟨?_, by decide, by decide, by decide, by decide, by decide, by decide⟩
  intro s
  rw [validate_hex_color_iff]
  constructor
  · rintro ⟨opt, pre, post, heq, hopt, hlen, hall, hpost⟩
    rcases hpost with rfl | rfl
    · left
      rw [specHexColor_iff]
      exact ⟨opt, pre, by simpa using heq, hopt, hlen, hall⟩
    · right
      refine ⟨⟨opt ++ pre⟩, ?_, ?_⟩
      · rw [specHexColor_iff]
        exact ⟨opt, pre, rfl, hopt, hlen, hall⟩
      · apply String.ext
        simp [String.push, heq, List.append_assoc]
  · rintro (h | ⟨t, ht, rfl⟩)
    · rw [specHexColor_iff] at h
      obtain ⟨opt, pre, heq, hopt, hlen, hall⟩ := h
      exact ⟨opt, pre, [], by simpa using heq, hopt, hlen, hall, Or.inl rfl⟩
    · rw [specHexColor_iff] at ht
      obtain ⟨opt, pre, heq, hopt, hlen, hall⟩ := ht
      refine ⟨opt, pre, ['\n'], ?_, hopt, hlen, hall, Or.inr rfl⟩
      simp [String.push, heq, List.append_assoc]

/-- A character accepted by the hex class has a hex-digit value. -/
theorem hexDigitVal_isSome {ch : Char} (h : isHexDigit ch = true) :
    ∃ v, hexDigitVal ch = some v := by
  unfold isHexDigit at h
  simp only [Bool.or_eq_true, Bool.and_eq_true, decide_eq_true_eq] at h
  unfold hexDigitVal
  rcases h with (⟨h1, h2⟩ | ⟨h1, h2⟩) | ⟨h1, h2⟩
  · exact ⟨_, if_pos ⟨h2, h1⟩⟩
  · rw [if_neg, if_pos ⟨h2, h1⟩]
    · exact ⟨_, rfl⟩
    · rintro ⟨hle, _⟩
      exact absurd (le_trans h1 hle) (by decide)
  · rw [if_neg, if_neg, if_pos ⟨h2, h1⟩]
    · exact ⟨_, rfl⟩
    · rintro ⟨hle, _⟩
      exact absurd (le_trans h1 hle) (by decide)
    · rintro ⟨hle, _⟩
      exact absurd (le_trans h1 hle) (by decide)

/-- Parsing a two-hex-digit slice succeeds with the place value. -/
theorem pyIntBase16_pair {x y : Char} {vx vy : ℕ} (hx : hexDigitVal x = some vx)
    (hy : hexDigitVal y = some vy) : pyIntBase16 [x, y] = .ok (vx * 16 + vy) := by
  simp [pyIntBase16, List.foldlM, hx, hy]

/-- A colour string passing the validator always converts: `hex_to_rgb`
cannot fail after `validate_hex_color` returned true. -/
theorem hex_to_rgb_ok_of_validate {c : String} (h : validate_hex_color c = true) :
    ∃ v, hex_to_rgb c = .ok v := by
  rw [validate_hex_color_iff] at h
  obtain ⟨opt, pre, post, heq, hopt, hlen, hall, hpost⟩ := h
  rcases pre with _ | ⟨a1, _ | ⟨a2, _ | ⟨a3, _ | ⟨a4, _ | ⟨a5, _ | ⟨a6, rest⟩⟩⟩⟩⟩⟩ <;>
    try simp at hlen
  have hrest : rest = [] := by simpa using hlen
  subst hrest
  obtain ⟨v1, hv1⟩ := hexDigitVal_isSome (hall a1 (by simp))
  obtain ⟨v2, hv2⟩ := hexDigitVal_isSome (hall a2 (by simp))
  obtain ⟨v3, hv3⟩ := hexDigitVal_isSome (hall a3 (by simp))
  obtain ⟨v4, hv4⟩ := hexDigitVal_isSome (hall a4 (by simp))
  obtain ⟨v5, hv5⟩ := hexDigitVal_isSome (hall a5 (by simp))
  obtain ⟨v6, hv6⟩ := hexDigitVal_isSome (hall a6 (by simp))
  have ha1 : (a1 == '#') = false := by
    rw [beq_eq_false_iff_ne]
    intro hh
    have hx := hall a1 (by simp)
    rw [hh] at hx
    exact absurd hx (by decide)
  have hdw : c.data.dropWhile (· == '#') = a1 :: a2 :: a3 :: a4 :: a5 :: a6 :: post := by
    rcases hopt with rfl | rfl
    · rw [heq]
      simp only [List.nil_append, List.cons_append]
      rw [List.dropWhile_cons, ha1]
      simp
    · rw [heq]
      simp only [List.cons_append, List.nil_append]
      rw [List.dropWhile_cons]
      simp only [show (('#' : Char) == '#') = true from rfl, if_true]
      rw [List.dropWhile_cons, ha1]
      simp
  have e1 : ((a1 :: a2 :: a3 :: a4 :: a5 :: a6 :: post).drop 0).take 2 = [a1, a2] := rfl
  have e2 : ((a1 :: a2 :: a3 :: a4 :: a5 :: a6 :: post).drop 2).take 2 = [a3, a4] := rfl
  have e3 : ((a1 :: a2 :: a3 :: a4 :: a5 :: a6 :: post).drop 4).take 2 = [a5, a6] := rfl
  have hfin : hex_to_rgb c =
      .ok (((v1 * 16 + v2 : ℕ) : ℚ) / 255, ((v3 * 16 + v4 : ℕ) : ℚ) / 255,
        ((v5 * 16 + v6 : ℕ) : ℚ) / 255) := by
    simp only [hex_to_rgb, hdw, e1, e2, e3, pyIntBase16_pair hv1 hv2, pyIntBase16_pair hv3 hv4,
      pyIntBase16_pair hv5 hv6, except_ok_bind, except_pure]
  exact ⟨_, hfin⟩

/-- C1. In the modelled resolver with minimum-count parameters: with a
valid colour and page, when the explicit square size fits fewer columns
than `min_horizontal` requires, the call fails with the sizing error
naming the horizontal axis (before anything is drawn: the result is an
error, which carries no segments); and when the row count is the
deficient one — whether `min_horizontal` is absent or supplied and
satisfied — the call fails with the sizing error naming the vertical
axis; and the two messages do identify their axes. -/
theorem explicit_size_min_conflict :
    (∀ (c p : String) (sq mt mb ml mr pw ph : ℚ) (inner : Bool) (m : ℤ)
        (mv : Option ℤ) (cf rf : ℤ),
        validate_hex_color c = true →
        PAGE_SIZES (pyLower p) = some (pw, ph) →
        computeDims (pw - ml * mmQ - mr * mmQ) (ph - mt * mmQ - mb * mmQ) (sq * mmQ) =
          .ok (cf, rf) →
        cf < m →
        create_tianzige_with_min c (some sq) mt mb ml mr inner p (some m) mv =
          .error (.valueError horizErrMsg)) ∧
    (∀ (c p : String) (sq mt mb ml mr pw ph : ℚ) (inner : Bool) (mh : Option ℤ)
        (m : ℤ) (cf rf : ℤ),
        validate_hex_color c = true →
        PAGE_SIZES (pyLower p) = some (pw, ph) →
        computeDims (pw - ml * mmQ - mr * mmQ) (ph - mt * mmQ - mb * mmQ) (sq * mmQ) =
          .ok (cf, rf) →
        (∀ m', mh = some m' → m' ≤ cf) →
        rf < m →
        create_tianzige_with_min c (some sq) mt mb ml mr inner p mh (some m) =
          .error (.valueError vertErrMsg)) ∧
    "horizontal".data <:+: horizErrMsg.data ∧
    "vertical".data <:+: vertErrMsg.data := by
  refine ⟨?_, ?_, by decide, by decide⟩
  · intro c p sq mt mb ml mr pw ph inner m mv cf rf hv hp hd hm
    obtain ⟨v, hx⟩ := hex_to_rgb_ok_of_validate hv
    simp only [create_tianzige_with_min, hv, hp, hx, hd, if_pos hm, Bool.not_true,
      Bool.false_eq_true, if_false, except_ok_bind, except_error_bind, except_pure,
      except_throw]
  · intro c p sq mt mb ml mr pw ph inner mh m cf rf hv hp hd hcheck hm
    obtain ⟨v, hx⟩ := hex_to_rgb_ok_of_validate hv
    cases mh with
    | none =>
        simp only [create_tianzige_with_min, hv, hp, hx, hd, if_pos hm, Bool.not_true,
          Bool.false_eq_true, if_false, except_ok_bind, except_error_bind, except_pure,
          except_throw]
    | some mhv =>
        have hpass : ¬(cf < mhv) := not_lt.mpr (hcheck mhv rfl)
        simp only [create_tianzige_with_min, hv, hp, hx, hd, if_neg hpass, if_pos hm,
          Bool.not_true, Bool.false_eq_true, if_false, except_ok_bind, except_error_bind,
          except_pure, except_throw]

/-- Witness for C1 at the spec's example: A4, 10 mm side margins (usable
width 190 mm), explicit 30 mm squares, `min_horizontal = 20` — only 6
columns fit, so the call fails naming the horizontal axis; and with both
minimums supplied as 5 and 20, the horizontal check passes (6 columns ≥ 5)
while only 8 rows fit, so the call fails naming the vertical axis. -/
theorem explicit_size_min_conflict_witness :
    create_tianzige_with_min "#808080" (some 30) 15 15 10 10 true "a4" (some 20) none =
      .error (.valueError horizErrMsg) ∧
    create_tianzige_with_min "#808080" (some 30) 15 15 10 10 true "a4" (some 5) (some 20) =
      .error (.valueError vertErrMsg) ∧
    "horizontal".data <:+: horizErrMsg.data ∧
    "vertical".data <:+: vertErrMsg.data := by
  refine ⟨?_, ?_, explicit_size_min_conflict.2.2.1, explicit_size_min_conflict.2.2.2⟩
  · apply explicit_size_min_conflict.1 "#808080" "a4" 30 15 15 10 10
      (210 * mmQ) (297 * mmQ) true 20 none 6 8
    · decide
    · rw [pyLower_a4]
      rfl
    · rw [computeDims_of_ne _ _ (by norm_num [mmQ] : (30 : ℚ) * mmQ ≠ 0)]
      norm_num [mmQ]
    · norm_num
  · apply explicit_size_min_conflict.2.1 "#808080" "a4" 30 15 15 10 10
      (210 * mmQ) (297 * mmQ) true (some 5) 20 6 8
    · decide
    · rw [pyLower_a4]
      rfl
    · rw [computeDims_of_ne _ _ (by norm_num [mmQ] : (30 : ℚ) * mmQ ≠ 0)]
      norm_num [mmQ]
    · intro m' hm'
      injection hm' with hm'
      omega
    · norm_num

end Tianzige
